import Mathlib

/-!
Verification development for the SEC XBRL statement-extraction engine
(`src/xbrl_parser.py`).  The Python source is shallowly embedded: pure
string/list manipulations become Lean functions over `List Char` /
`String`, Python dicts become association lists whose lookup semantics
match dict assignment (later assignment wins), Python floats become the
exact decimal type `PyFloat` (no rounding is exercised by the code:
values are parsed decimals and multiplied by integer signs), raised
exceptions become `Except Unit` or
`Option` results, and the unbounded recursion of the presentation walk
becomes a fuel-indexed function where fuel exhaustion models a Python
`RecursionError`.
-/

/-- Boolean test that the first list starts with the second. -/
def startsWithL (hay needle : List Char) : Bool :=
  match hay, needle with
  | _, [] => true
  | [], _ :: _ => false
  | a :: as, b :: bs => a == b && startsWithL as bs

/-- Boolean substring containment on character lists; models the Python
`in` operator on strings. -/
def containsSub (hay needle : List Char) : Bool :=
  match hay with
  | [] => startsWithL [] needle
  | c :: t => startsWithL (c :: t) needle || containsSub t needle

/-- Models Python `needle in hay` for strings. -/
def strContains (hay needle : String) : Bool :=
  containsSub hay.data needle.data

/-- Models Python `hay.endswith(needle)`. -/
def strEndsWith (hay needle : String) : Bool :=
  startsWithL hay.data.reverse needle.data.reverse

/-- Models Python `s.replace(",", "")`: every comma removed. -/
def removeCommas (s : String) : String :=
  String.mk (s.data.filter (fun c => c ≠ ','))

/-- Characters after the last colon; models
`raw.split(":")[-1] if ":" in raw else raw` (the two Python branches
agree: with no colon the whole string is returned). -/
def afterLastColon (s : String) : String :=
  String.mk (s.data.foldl (fun acc c => if c = ':' then [] else acc ++ [c]) [])

/-- Characters after the last hash; models `href.split("#")[-1]`. -/
def afterLastHash (s : String) : String :=
  String.mk (s.data.foldl (fun acc c => if c = '#' then [] else acc ++ [c]) [])

/-- Drop everything up to and including the first underscore. -/
def afterFirstUnderscoreL : List Char → List Char
  | [] => []
  | '_' :: t => t
  | _ :: t => afterFirstUnderscoreL t

/-- Models `anchor.split("_", 1)[-1] if "_" in anchor else anchor`. -/
def afterFirstUnderscore (s : String) : String :=
  if s.data.contains '_' then String.mk (afterFirstUnderscoreL s.data) else s

/-- Whitespace trim on character lists; models Python `s.strip()`. -/
def trimL (cs : List Char) : List Char :=
  ((cs.dropWhile Char.isWhitespace).reverse.dropWhile Char.isWhitespace).reverse

/-- Models Python `s.strip()`. -/
def strTrim (s : String) : String :=
  String.mk (trimL s.data)

/-- Numeric value of a decimal digit list (most significant first). -/
def digitsToNat (cs : List Char) : ℕ :=
  cs.foldl (fun a c => a * 10 + (c.toNat - 48)) 0

/-- Exact model of the Python floats produced by this code: every value
the parser builds is a finite decimal `num / 10 ^ exp`, and the only
arithmetic the code performs on values is multiplication by an integer
sign, so no rounding is ever exercised. -/
structure PyFloat where
  num : ℤ
  exp : ℕ
deriving DecidableEq

/-- Rational value denoted by a `PyFloat`. -/
def PyFloat.toRat (a : PyFloat) : ℚ :=
  (a.num : ℚ) / (10 : ℚ) ^ a.exp

/-- Numeric equality of two `PyFloat`s (cross-multiplied, so it is
decidable by integer arithmetic). -/
def PyFloat.eqv (a b : PyFloat) : Prop :=
  a.num * 10 ^ b.exp = b.num * 10 ^ a.exp

instance (a b : PyFloat) : Decidable (a.eqv b) := by
  unfold PyFloat.eqv
  infer_instance

/-- Numeric strict-order test on `PyFloat`s; models `<` on Python
floats for the decimal values this code produces. -/
def PyFloat.ltB (a b : PyFloat) : Bool :=
  a.num * 10 ^ b.exp < b.num * 10 ^ a.exp

/-- Multiplication by an integer (used only for the sign flip). -/
def PyFloat.mulInt (a : PyFloat) (k : ℤ) : PyFloat :=
  ⟨a.num * k, a.exp⟩

/-- An integer as a `PyFloat`. -/
def PyFloat.ofInt (n : ℤ) : PyFloat :=
  ⟨n, 0⟩

/-- Mantissa and exponent parts combined into a `PyFloat`. -/
def pyFloatOfParts (sgn : ℤ) (ip fp : List Char) (esgn : ℤ) (ep : List Char) : PyFloat :=
  let mantNum : ℤ := sgn * ((digitsToNat ip : ℤ) * 10 ^ fp.length + (digitsToNat fp : ℤ))
  let e := digitsToNat ep
  if esgn < 0 then ⟨mantNum, fp.length + e⟩
  else ⟨mantNum * 10 ^ e, fp.length⟩

/-- Exponent-part check: consumes `e`/`E`, optional sign, then digits to
the end of input; an empty input is the no-exponent case. -/
def parseExpPart : List Char → Option (ℤ × List Char)
  | [] => some (1, [])
  | 'e' :: r =>
    match r with
    | '+' :: r2 => if r2 ≠ [] && r2.all (·.isDigit) then some (1, r2) else none
    | '-' :: r2 => if r2 ≠ [] && r2.all (·.isDigit) then some (-1, r2) else none
    | r2 => if r2 ≠ [] && r2.all (·.isDigit) then some (1, r2) else none
  | 'E' :: r =>
    match r with
    | '+' :: r2 => if r2 ≠ [] && r2.all (·.isDigit) then some (1, r2) else none
    | '-' :: r2 => if r2 ≠ [] && r2.all (·.isDigit) then some (-1, r2) else none
    | r2 => if r2 ≠ [] && r2.all (·.isDigit) then some (1, r2) else none
  | _ => none

/-- Model of the Python built-in `float(str)` restricted to finite
decimal literals: optional surrounding whitespace, optional sign, an
integer part and/or a fractional part, optional exponent.  Inputs
outside this grammar (including the em dash, a bare sign, the empty
string, and parenthesized text) raise `ValueError` in Python and return
`none` here.  The special spellings `inf`/`nan` and digit underscores
are never produced by the call sites and are not modelled. -/
def pyFloat? (s : String) : Option PyFloat :=
  let cs := trimL s.data
  let sgncs : ℤ × List Char :=
    match cs with
    | '+' :: r => (1, r)
    | '-' :: r => (-1, r)
    | _ => (1, cs)
  let ip := sgncs.2.takeWhile (·.isDigit)
  let r1 := sgncs.2.dropWhile (·.isDigit)
  let fpr : List Char × List Char :=
    match r1 with
    | '.' :: r => (r.takeWhile (·.isDigit), r.dropWhile (·.isDigit))
    | _ => ([], r1)
  let fracGiven : Bool := match r1 with | '.' :: _ => true | _ => false
  if ip = [] && (!fracGiven || fpr.1 = []) then none
  else
    match parseExpPart fpr.2 with
    | none => none
    | some (esgn, ep) => some (pyFloatOfParts sgncs.1 ip fpr.1 esgn ep)

example : pyFloat? "45" = some ⟨45, 0⟩ := by decide
example : pyFloat? "1000" = some ⟨1000, 0⟩ := by decide
example : pyFloat? "-10" = some ⟨-10, 0⟩ := by decide
example : pyFloat? "(10)" = none := by decide
example : pyFloat? "" = none := by decide
example : pyFloat? "-" = none := by decide
example : pyFloat? "—" = none := by decide
example : pyFloat? "1.5" = some ⟨15, 1⟩ := by decide
example : pyFloat? "2e3" = some ⟨2000, 0⟩ := by decide
example : pyFloat? " 7 " = some ⟨7, 0⟩ := by decide
example : pyFloat? "1.5e-2" = some ⟨15, 3⟩ := by decide

/-!
Role URI classification (`classify_role` and `STATEMENT_RULES` in
`src/xbrl_parser.py`).
-/

/-- One entry of the ordered rule table: a statement name, the keywords
that must appear in the role URI, and the keywords that disqualify the
role even if an inclusion keyword matches. -/
structure StatementRule where
  name : String
  includeKw : List String
  excludeKw : List String
deriving DecidableEq

/-- The ordered rule table `STATEMENT_RULES`, transcribed from the
source. -/
def STATEMENT_RULES : List StatementRule := [
  { name := "Balance Sheet",
    includeKw := [
      "balancesheet", "balance_sheet",
      "financialposition", "financial_position",
      "financialcondition", "financial_condition",
      "consolidatedbalance", "statementoffinancialposition"],
    excludeKw := ["parenthetical", "detail", "policy", "note"] },
  { name := "Income Statement",
    includeKw := [
      "incomestatement", "income_statement",
      "statementsofincome", "statementsofoperations",
      "statementofincome", "statementofoperations",
      "statementofearnings", "statementsofearnings",
      "consolidatedoperations", "consolidatedincome",
      "consolidatedearnings",
      "profitandloss", "profit_and_loss",
      "resultsofoperations",
      "revenueexpense", "revenuecostsandexpenses"],
    excludeKw := ["parenthetical", "comprehensive", "detail", "policy", "note"] },
  { name := "Comprehensive Income",
    includeKw := [
      "comprehensiveincome", "comprehensive_income",
      "othercomprehensive"],
    excludeKw := ["parenthetical", "detail", "policy", "note"] },
  { name := "Cash Flow",
    includeKw := [
      "cashflow", "cash_flow",
      "statementofcashflows", "statementsofcashflows",
      "consolidatedcashflows", "consolidatedstatementsofcash"],
    excludeKw := ["parenthetical", "detail", "policy", "note",
                  "supplement", "disclosure"] },
  { name := "Stockholders Equity",
    includeKw := [
      "stockholdersequity", "stockholders_equity",
      "shareholdersequity", "shareholders_equity",
      "changesinequity", "changes_in_equity",
      "statementofequity", "statementsofequity"],
    excludeKw := ["parenthetical", "detail", "policy", "note"] }]

/-- Lowercasing on character lists; models Python `s.lower()` for the
ASCII role URIs this code sees. -/
def lowerL (cs : List Char) : List Char :=
  cs.map Char.toLower

/-- The normalization in `classify_role`: lowercase, then drop every
space and hyphen (`replace(" ", "").replace("-", "")`). -/
def normalizeRole (roleUri : String) : List Char :=
  (lowerL roleUri.data).filter (fun c => c ≠ ' ' && c ≠ '-')

/-- Whether any keyword of the list occurs in the normalized URI. -/
def anyKeyword (normalized : List Char) (kws : List String) : Bool :=
  kws.any (fun kw => containsSub normalized kw.data)

/-- The rule loop of `classify_role`: a rule whose exclude keyword and
include keyword both match is skipped; a rule with no include match is
passed over (its exclusion is moot); the first rule whose include check
passes wins. -/
def classifyGo (normalized : List Char) : List StatementRule → Option String
  | [] => none
  | rule :: rest =>
    if anyKeyword normalized rule.excludeKw && anyKeyword normalized rule.includeKw then
      classifyGo normalized rest
    else if anyKeyword normalized rule.includeKw then
      some rule.name
    else
      classifyGo normalized rest

/-- Classify a presentation/calculation role URI into a statement name;
returns `none` when unclassified (`classify_role` in the source). -/
def classify_role (roleUri : String) : Option String :=
  classifyGo (normalizeRole roleUri) STATEMENT_RULES

example : classify_role "http://www.example.com/role/ConsolidatedBalanceSheets" =
    some "Balance Sheet" := by decide
example : classify_role "http://www.example.com/role/StatementsOfCashFlowsParenthetical" =
    none := by decide

/-- Concept name from a linkbase loc href (`extract_concept_from_href`):
the fragment after the hash, with the namespace part up to the first
underscore stripped. -/
def extract_concept_from_href (href : String) : String :=
  afterFirstUnderscore (afterLastHash href)

example : extract_concept_from_href "aapl-20240928_htm.xml#us-gaap_Assets" = "Assets" := by
  decide

/-!
Instance-document model and `parse_instance` (contexts and facts).
-/

/-- Namespace URI of the XBRL instance dialect (`XBRL_NS`, without the
surrounding braces of the ElementTree qualified-tag syntax). -/
def XBRL_NS : String := "http://www.xbrl.org/2003/instance"

/-- Namespace URI of the linkbase dialect (`LINK_NS`). -/
def LINK_NS : String := "http://www.xbrl.org/2003/linkbase"

/-- Namespace URI of xlink attributes (`XLINK_NS`). -/
def XLINK_NS : String := "http://www.w3.org/1999/xlink"

/-- Namespace URI of the inline-XBRL dialect (`IXBRL_NS`). -/
def IXBRL_NS : String := "http://www.xbrl.org/2013/inlineXBRL"

/-- The entity declaration of a context: `segmentMembers` is `some ms`
exactly when the entity has a `segment` child element, `ms` listing its
dimension members (`explicitMember`/`typedMember` names). -/
structure EntityDecl where
  segmentMembers : Option (List String)
deriving DecidableEq

/-- The period declaration of a context: optional `instant`,
`startDate` and `endDate` child texts. -/
structure PeriodDecl where
  instant : Option String
  startDate : Option String
  endDate : Option String
deriving DecidableEq

/-- One `context` element of the instance document. -/
structure ContextDecl where
  id : String
  entity : Option EntityDecl
  period : PeriodDecl
deriving DecidableEq

/-- Whether `entity.find(segment)` is not `None` for this context: an
entity child exists and declares a segment child. -/
def hasSegmentChild (c : ContextDecl) : Bool :=
  match c.entity with
  | none => false
  | some ent => ent.segmentMembers.isSome

/-- Whether the context is segmented in the sense of the spec: its
entity declaration has a segment child containing at least one
dimension member. -/
def hasDimensionMember (c : ContextDecl) : Prop :=
  ∃ ent ms, c.entity = some ent ∧ ent.segmentMembers = some ms ∧ ms ≠ []

/-- Lookup in an association list (first binding wins; the builders
below keep keys unique, matching a Python dict). -/
def lookupAssoc {α : Type} (m : List (String × α)) (k : String) : Option α :=
  (m.find? (fun p => p.1 == k)).map (fun p => p.2)

/-- The context-map entry a single context contributes: skipped when a
segment child is present; otherwise the instant text, else the endDate
text, else nothing. -/
def ctxEntry (c : ContextDecl) : Option (String × String) :=
  if hasSegmentChild c then none
  else
    match c.period.instant with
    | some d => some (c.id, d)
    | none =>
      match c.period.endDate with
      | some d => some (c.id, d)
      | none => none

/-- The context map built by the first loop of `parse_instance`.  The
source assigns into a dict in document order, so a later context with
the same id overwrites an earlier one; processing the tail first and
keeping its binding models exactly that. -/
def parseContexts : List ContextDecl → List (String × String)
  | [] => []
  | c :: rest =>
    let m := parseContexts rest
    match ctxEntry c with
    | none => m
    | some (k, v) => if m.any (fun p => p.1 == k) then m else (k, v) :: m

/-- One candidate fact element seen by `root.iter()`: its namespace URI
(`none` for an unqualified tag), local name, attributes, `elem.text`,
and the joined `elem.itertext()`. -/
structure InstanceElem where
  ns : Option String
  localName : String
  attrs : List (String × String)
  text : Option String
  itertext : String
deriving DecidableEq

/-- Models `elem.attrib.get(k)`. -/
def getAttr (e : InstanceElem) (k : String) : Option String :=
  lookupAssoc e.attrs k

/-- One extracted fact: concept name, resolved context date, value
(named `XFact` because Mathlib already owns the name `Fact`). -/
structure XFact where
  concept : String
  date : String
  value : PyFloat
deriving DecidableEq

/-- The per-element body of the fact-extraction loop of
`parse_instance`: resolve `contextRef` against the context map (a
falsy or unresolvable reference skips the element), then either the
inline-XBRL branch (concept from the `name` attribute after the last
colon, sign attribute as a -1/1 multiplier, comma-stripped joined text)
or the plain-dialect branch (concept from the tag local name, value
from `elem.text`); any parse failure inside the loop body is caught and
skips the element. -/
def extractFromElem (cm : List (String × String)) (e : InstanceElem) : Option XFact :=
  match getAttr e "contextRef" with
  | none => none
  | some cref =>
    if cref = "" then none
    else
      match lookupAssoc cm cref with
      | none => none
      | some date =>
        if e.ns = some IXBRL_NS ∧ (e.localName = "nonFraction" ∨ e.localName = "nonNumeric") then
          let rawConcept := (getAttr e "name").getD ""
          if rawConcept = "" then none
          else
            let concept := afterLastColon rawConcept
            let sgn : ℤ := if getAttr e "sign" = some "-" then -1 else 1
            let textVal := removeCommas (strTrim e.itertext)
            if textVal = "" then none
            else
              match pyFloat? textVal with
              | none => none
              | some v => some ⟨concept, date, v.mulInt sgn⟩
        else
          match e.ns with
          | none => none
          | some n =>
            if n = IXBRL_NS ∨ n = LINK_NS ∨ n = XLINK_NS then none
            else
              match e.text with
              | none => none
              | some t =>
                match pyFloat? t with
                | none => none
                | some v => some ⟨e.localName, date, v⟩

/-- The whole of `parse_instance` on an already-fetched document: the
context map from the context declarations, then the facts extracted
from the candidate elements in document order. -/
def parse_instance_doc (ctxs : List ContextDecl) (elems : List InstanceElem) : List XFact :=
  elems.filterMap (extractFromElem (parseContexts ctxs))

/-!
Presentation linkbase (`parse_presentation`): label map, parent-to-
children adjacency, root discovery and the recursive flattening walk.
-/

/-- One child entry of the adjacency map: the node dict the source
appends (`concept`, `order`, `parent`). -/
structure PNode where
  concept : String
  order : PyFloat
  parent : Option String
deriving DecidableEq

/-- One `loc` declaration (label and href attributes, possibly
absent). -/
structure PresLoc where
  label : Option String
  href : Option String
deriving DecidableEq

/-- One `presentationArc` declaration: from-label, to-label and the
raw `order` attribute text. -/
structure PresArc where
  fromLabel : Option String
  toLabel : Option String
  orderAttr : Option String
deriving DecidableEq

/-- One `presentationLink` block with its role attribute. -/
structure PresLink where
  role : Option String
  locs : List PresLoc
  arcs : List PresArc
deriving DecidableEq

/-- The label-to-concept map of one role (`label_map`): only locs with
a truthy label and href contribute; a later loc with the same label
overwrites an earlier one (dict assignment). -/
def buildLabelMap : List PresLoc → List (String × String)
  | [] => []
  | loc :: rest =>
    let m := buildLabelMap rest
    match loc.label, loc.href with
    | some lbl, some href =>
      if lbl = "" ∨ href = "" then m
      else if m.any (fun p => p.1 == lbl) then m
      else (lbl, extract_concept_from_href href) :: m
    | _, _ => m

/-- Append a child node under a parent key, preserving first-seen key
order and per-parent append order (`children[parent].append(...)`). -/
def addChild (m : List (String × List PNode)) (p : String) (n : PNode) :
    List (String × List PNode) :=
  match m with
  | [] => [(p, [n])]
  | (k, ns) :: rest =>
    if k = p then (k, ns ++ [n]) :: rest else (k, ns) :: addChild rest p n

/-- The adjacency map built from the arc declarations: the order
attribute is parsed with `float(arc.attrib.get("order", "0"))` (a
malformed order text raises out of the whole parse), and an arc whose
from- or to-label does not resolve to a truthy concept is skipped. -/
def buildChildren (lm : List (String × String)) (arcs : List PresArc) :
    Except Unit (List (String × List PNode)) :=
  arcs.foldlM
    (fun m arc =>
      match pyFloat? (arc.orderAttr.getD "0") with
      | none => Except.error ()
      | some ord =>
        match arc.fromLabel.bind (fun l => lookupAssoc lm l),
              arc.toLabel.bind (fun l => lookupAssoc lm l) with
        | some p, some c =>
          if p = "" ∨ c = "" then pure m
          else pure (addChild m p ⟨c, ord, some p⟩)
        | _, _ => pure m)
    []

/-- Stable insertion into an order-sorted node list: an equal-order
node lands after the ones already there, matching the stability of
Python `sorted`. -/
def insertNodeAsc (a : PNode) : List PNode → List PNode
  | [] => [a]
  | b :: bs => if PyFloat.ltB a.order b.order then a :: b :: bs else b :: insertNodeAsc a bs

/-- Models `sorted(children[parent], key=lambda x: x["order"])`. -/
def sortNodes (l : List PNode) : List PNode :=
  l.foldl (fun acc a => insertNodeAsc a acc) []

/-- One iteration of the loop body of `walk`: emit the node, then
splice in the result of walking its concept (`subres`); a failure
anywhere is sticky. -/
def walkStep (subres : Option (List PNode)) (acc : Option (List PNode)) (node : PNode) :
    Option (List PNode) :=
  match acc with
  | none => none
  | some l =>
    match subres with
    | none => none
    | some sub => some (l ++ node :: sub)

/-- The recursive `walk`, indexed by fuel: each level of recursion
consumes one unit, so fuel exhaustion (`none`) models exceeding the
Python recursion limit (`RecursionError`).  A parent absent from the
adjacency map contributes nothing; otherwise each child is emitted and
then walked, children in ascending order. -/
def walkF (children : List (String × List PNode)) : ℕ → String → Option (List PNode)
  | 0, _ => none
  | fuel + 1, parent =>
    match lookupAssoc children parent with
    | none => some []
    | some ns =>
      (sortNodes ns).foldl
        (fun acc node => walkStep (walkF children fuel node.concept) acc node)
        (some [])

/-- Every concept that occurs as an arc target in the adjacency map
(`all_children`). -/
def allChildConcepts (children : List (String × List PNode)) : List String :=
  (children.map (fun p => p.2.map (fun n => n.concept))).flatten

/-- Root labels: adjacency-map keys that are never an arc target, in
key insertion order. -/
def rootsOf (children : List (String × List PNode)) : List String :=
  (children.map (fun p => p.1)).filter (fun p => !(allChildConcepts children).contains p)

/-- Total number of child entries: an upper bound for the recursion
depth of any terminating walk. -/
def nodeCount (children : List (String × List PNode)) : ℕ :=
  (children.map (fun p => p.2.length)).sum

/-- The flattened ordered list of one role: each root walked in turn
with enough fuel for any forest; `none` models the unbounded recursion
of a cyclic arc graph. -/
def flattenRole (children : List (String × List PNode)) : Option (List PNode) :=
  (rootsOf children).foldl
    (fun acc r =>
      match acc with
      | none => none
      | some l =>
        match walkF children (nodeCount children + 1) r with
        | none => none
        | some sub => some (l ++ sub))
    (some [])

/-- `parse_presentation` over an already-fetched linkbase body: each
link block whose role classifies is flattened and stored under its
statement name (a later block with the same statement name overwrites
an earlier one); an unbounded walk aborts the parse. -/
def parse_presentation_doc : List PresLink → Except Unit (List (String × List PNode))
  | [] => Except.ok []
  | link :: rest => do
    let m ← parse_presentation_doc rest
    match classify_role (link.role.getD "") with
    | none => pure m
    | some stmtName => do
      let children ← buildChildren (buildLabelMap link.locs) link.arcs
      match flattenRole children with
      | none => Except.error ()
      | some ordered =>
        pure (if m.any (fun p => p.1 == stmtName) then m else (stmtName, ordered) :: m)

/-!
Calculation linkbase (`parse_calculation`) and the merge of the two
concept maps (`merge_concept_maps`).
-/

/-- One `calculationLink` block: its role and its loc declarations
(only hrefs are consumed). -/
structure CalcLink where
  role : Option String
  locs : List PresLoc
deriving DecidableEq

/-- Ensure a statement key exists (`statements_concepts[statement] =
set()` on first sight), preserving key insertion order. -/
def ensureStmt (m : List (String × List String)) (stmt : String) :
    List (String × List String) :=
  if m.any (fun p => p.1 == stmt) then m else m ++ [(stmt, [])]

/-- Add one concept to a statement's set.  Python sets deduplicate;
the set-iteration order the source later relies on is arbitrary, so the
model fixes it to insertion order. -/
def addConceptToSet (m : List (String × List String)) (stmt c : String) :
    List (String × List String) :=
  match m with
  | [] => []
  | (k, cs) :: rest =>
    if k = stmt then (k, if cs.contains c then cs else cs ++ [c]) :: rest
    else (k, cs) :: addConceptToSet rest stmt c

/-- The locs loop of one calculation link: a falsy href is skipped,
otherwise the href's concept is added to the statement's set. -/
def addCalcLocs (m : List (String × List String)) (stmt : String) :
    List PresLoc → List (String × List String)
  | [] => m
  | loc :: rest =>
    let href := (loc.href).getD ""
    if href = "" then addCalcLocs m stmt rest
    else addCalcLocs (addConceptToSet m stmt (extract_concept_from_href href)) stmt rest

/-- `parse_calculation` over an already-fetched linkbase body: each
link whose role classifies contributes its concepts to that
statement's set. -/
def parse_calculation_doc (links : List CalcLink) : List (String × List String) :=
  links.foldl
    (fun m link =>
      match classify_role (link.role.getD "") with
      | none => m
      | some stmt => addCalcLocs (ensureStmt m stmt) stmt link.locs)
    []

/-- First-occurrence deduplication of a string list. -/
def uniqFirstAux (seen : List String) : List String → List String
  | [] => []
  | a :: t => if seen.contains a then uniqFirstAux seen t else a :: uniqFirstAux (a :: seen) t

/-- First-occurrence deduplication (models iterating a Python dict or
set built by insertion). -/
def uniqFirst (l : List String) : List String :=
  uniqFirstAux [] l

/-- `merge_concept_maps`: for every statement named by either source,
keep the presentation arcs and append calculation-only concepts after
them with a running order counter starting at one past the arc count.
The Python set union iterates in arbitrary order; the model fixes both
the statement order and the appended-concept order to first-appearance
order. -/
def merge_concept_maps (preMap : List (String × List PNode))
    (calMap : List (String × List String)) : List (String × List PNode) :=
  let allStatements := uniqFirst (preMap.map (fun p => p.1) ++ calMap.map (fun p => p.1))
  allStatements.map (fun stmt =>
    let preArcs := (lookupAssoc preMap stmt).getD []
    let calConcepts := (lookupAssoc calMap stmt).getD []
    let preNames := preArcs.map (fun a => a.concept)
    let appended := (calConcepts.foldl
      (fun (acc : List PNode × ℤ) c =>
        if preNames.contains c then acc
        else (acc.1 ++ [⟨c, ⟨acc.2, 0⟩, none⟩], acc.2 + 1))
      ([], (preArcs.length : ℤ) + 1)).1
    (stmt, preArcs ++ appended))

/-!
Statement assembly (`distribute_statements`) and the consolidated
pivot of `extract_excel_bytes`.  A pandas pivot with `aggfunc="first"`
is modelled by its observable content: the source fact rows it was
built from plus its row and column orders; the cell at (concept, date)
is the value of the first source fact with that concept and date.
-/

/-- Lexicographic code-point comparison of character lists (Python
string `<`). -/
def listLtB : List Char → List Char → Bool
  | [], [] => false
  | [], _ :: _ => true
  | _ :: _, [] => false
  | a :: as, b :: bs =>
    if a.toNat < b.toNat then true
    else if b.toNat < a.toNat then false
    else listLtB as bs

/-- Python string `<`. -/
def strLtB (a b : String) : Bool :=
  listLtB a.data b.data

/-- Stable insertion by a strict comparison. -/
def insertStrBy (lt : String → String → Bool) (a : String) : List String → List String
  | [] => [a]
  | b :: bs => if lt a b then a :: b :: bs else b :: insertStrBy lt a bs

/-- Insertion sort by a strict comparison (stable, like Python and
pandas sorts). -/
def sortStrs (lt : String → String → Bool) (l : List String) : List String :=
  l.foldl (fun acc a => insertStrBy lt a acc) []

/-- The distinct dates of a fact list, descending (pandas sorts pivot
columns ascending; `sort_index(axis=1, ascending=False)` flips them). -/
def datesDesc (facts : List XFact) : List String :=
  sortStrs (fun a b => strLtB b a) (uniqFirst (facts.map (fun f => f.date)))

/-- Observable content of a pandas pivot with `aggfunc="first"`. -/
structure PivotTable where
  srcFacts : List XFact
  rowOrder : List String
  colOrder : List String
deriving DecidableEq

/-- First value among the source facts with the given concept and date
(what `aggfunc="first"` stores in the cell, groups kept in row
order). -/
def pivotFirst (facts : List XFact) (c d : String) : Option PyFloat :=
  ((facts.filter (fun f => f.concept == c && f.date == d)).head?).map (fun f => f.value)

/-- The cell of a pivot table at (concept, date): present only when the
row and column exist. -/
def cellValue (t : PivotTable) (c d : String) : Option PyFloat :=
  if t.rowOrder.contains c && t.colOrder.contains d then pivotFirst t.srcFacts c d
  else none

/-- `distribute_statements`: for each statement, restrict the facts to
the statement's concepts, drop the statement if nothing is left, pivot
with first-wins aggregation, reindex the rows to the concept ordering
restricted to concepts that have facts, and sort columns descending. -/
def distribute_statements (facts : List XFact)
    (stmtsStructure : List (String × List PNode)) : List (String × PivotTable) :=
  stmtsStructure.filterMap (fun p =>
    let ordered := p.2.map (fun a => a.concept)
    let subset := facts.filter (fun f => ordered.contains f.concept)
    if subset.isEmpty then none
    else
      some (p.1,
        ⟨subset,
         ordered.filter (fun c => subset.any (fun f => f.concept == c)),
         datesDesc subset⟩))

/-- The consolidated master pivot of `extract_excel_bytes` (the "All
Facts" sheet): every fact, rows the distinct concepts in the ascending
order a pandas pivot gives its index, columns descending. -/
def allFactsTable (facts : List XFact) : PivotTable :=
  ⟨facts, sortStrs strLtB (uniqFirst (facts.map (fun f => f.concept))), datesDesc facts⟩

/-!
Run-level control flow: file discovery in the filing index and the
fetch boundary.  A fetch oracle maps a file name to `some` parsed body
or `none` for a failed HTTP request (a `raise_for_status` or network
exception, which no caller catches).
-/

/-- `find_file`: the first index entry whose lowercased name ends with
the suffix. -/
def find_file (files : List String) (suffix : String) : Option String :=
  files.find? (fun n => strEndsWith (String.mk (lowerL n.data)) suffix)

/-- The instance-file search at the top of `parse_instance`: first name
ending in `.xml` and containing `_htm`. -/
def findInstanceFile (files : List String) : Option String :=
  files.find? (fun n =>
    strEndsWith (String.mk (lowerL n.data)) ".xml" &&
    strContains (String.mk (lowerL n.data)) "_htm")

/-- `parse_instance` at the run level: a missing instance file raises,
a failed fetch raises, otherwise the document is parsed. -/
def parse_instance_run (files : List String)
    (fetch : String → Option (List ContextDecl × List InstanceElem)) :
    Except Unit (List XFact) :=
  match findInstanceFile files with
  | none => Except.error ()
  | some f =>
    match fetch f with
    | none => Except.error ()
    | some doc => Except.ok (parse_instance_doc doc.1 doc.2)

/-- `parse_presentation` at the run level: a missing `_pre.xml` file
returns an empty map, but a failed fetch of a present file raises. -/
def parse_presentation_run (files : List String)
    (fetch : String → Option (List PresLink)) :
    Except Unit (List (String × List PNode)) :=
  match find_file files "_pre.xml" with
  | none => Except.ok []
  | some f =>
    match fetch f with
    | none => Except.error ()
    | some doc => parse_presentation_doc doc

/-- `parse_calculation` at the run level: a missing `_cal.xml` file
returns an empty map, but a failed fetch of a present file raises. -/
def parse_calculation_run (files : List String)
    (fetch : String → Option (List CalcLink)) :
    Except Unit (List (String × List String)) :=
  match find_file files "_cal.xml" with
  | none => Except.ok []
  | some f =>
    match fetch f with
    | none => Except.error ()
    | some doc => Except.ok (parse_calculation_doc doc)

/-- The pipeline of `extract_excel_bytes` up to the point where the
tables are handed to the spreadsheet writer: facts, both concept maps,
the merge, the per-statement tables and the consolidated table.  Any
error on the way propagates to the caller. -/
def extract_excel_run (files : List String)
    (fetchInstance : String → Option (List ContextDecl × List InstanceElem))
    (fetchPre : String → Option (List PresLink))
    (fetchCal : String → Option (List CalcLink)) :
    Except Unit (List (String × PivotTable) × PivotTable) := do
  let facts ← parse_instance_run files fetchInstance
  let preMap ← parse_presentation_run files fetchPre
  let calMap ← parse_calculation_run files fetchCal
  let merged := merge_concept_maps preMap calMap
  pure (distribute_statements facts merged, allFactsTable facts)

/-!
Lemmas about the context map and the fact extractor.
-/

/-- An entry produced by `ctxEntry` carries the context id as key and
only exists for contexts without a segment child. -/
theorem ctxEntry_some (c : ContextDecl) (kv : String × String)
    (h : ctxEntry c = some kv) : kv.1 = c.id ∧ hasSegmentChild c = false := by
  unfold ctxEntry at h
  by_cases hseg : hasSegmentChild c
  · simp [hseg] at h
  · refine ⟨?_, by simpa using hseg⟩
    simp only [hseg, if_neg, Bool.false_eq_true, not_false_iff, if_false] at h
    cases hi : c.period.instant with
    | some d => rw [hi] at h; cases h; rfl
    | none =>
      rw [hi] at h
      cases he : c.period.endDate with
      | some d => rw [he] at h; cases h; rfl
      | none => rw [he] at h; cases h

/-- If every context carrying the id `k` has a segment child, `k` is
absent from the context map. -/
theorem parseContexts_lookup_none (ctxs : List ContextDecl) (k : String)
    (h : ∀ c ∈ ctxs, c.id = k → hasSegmentChild c = true) :
    lookupAssoc (parseContexts ctxs) k = none := by
  induction ctxs with
  | nil => rfl
  | cons c rest ih =>
    have hrest : lookupAssoc (parseContexts rest) k = none :=
      ih (fun c' hc' => h c' (List.mem_cons_of_mem _ hc'))
    rw [parseContexts]
    cases hentry : ctxEntry c with
    | none => simpa using hrest
    | some kv =>
      obtain ⟨hfst, hseg⟩ := ctxEntry_some c kv hentry
      have hidne : c.id ≠ k := by
        intro heq
        have := h c (List.mem_cons_self c rest) heq
        rw [hseg] at this
        exact Bool.false_ne_true this
      obtain ⟨k1, v1⟩ := kv
      simp only at hfst
      subst hfst
      by_cases hany : (parseContexts rest).any (fun p => p.1 == c.id)
      · simpa [hany] using hrest
      · simp only [hany, if_neg, Bool.false_eq_true, not_false_iff, if_false]
        unfold lookupAssoc at hrest ⊢
        rw [List.find?_cons_of_neg]
        · exact hrest
        · simpa using hidne

/-- A fact element whose `contextRef` does not resolve against the
context map is skipped. -/
theorem extractFromElem_none_of_unresolved (cm : List (String × String))
    (e : InstanceElem) (cref : String)
    (h1 : getAttr e "contextRef" = some cref) (h2 : lookupAssoc cm cref = none) :
    extractFromElem cm e = none := by
  unfold extractFromElem
  rw [h1]
  by_cases hc : cref = ""
  · simp [hc]
  · simp [hc, h2]

/-!
Membership lemmas for the sorting and deduplication helpers.
-/

/-- Membership through stable string insertion. -/
theorem mem_insertStrBy (lt : String → String → Bool) (a x : String) (l : List String) :
    x ∈ insertStrBy lt a l ↔ x = a ∨ x ∈ l := by
  induction l with
  | nil => simp [insertStrBy]
  | cons b bs ih =>
    by_cases hlt : lt a b
    · simp [insertStrBy, hlt]
    · simp only [insertStrBy, hlt, Bool.false_eq_true, if_false, List.mem_cons, ih]
      tauto

/-- Membership through the string insertion sort. -/
theorem mem_sortStrs (lt : String → String → Bool) (l : List String) (x : String) :
    x ∈ sortStrs lt l ↔ x ∈ l := by
  suffices h : ∀ acc : List String,
      x ∈ l.foldl (fun acc a => insertStrBy lt a acc) acc ↔ x ∈ acc ∨ x ∈ l by
    simpa using h []
  induction l with
  | nil => simp
  | cons b bs ih =>
    intro acc
    simp only [List.foldl_cons, ih, mem_insertStrBy, List.mem_cons]
    tauto

/-- Membership through first-occurrence deduplication. -/
theorem mem_uniqFirstAux (l : List String) : ∀ (seen : List String) (x : String),
    x ∈ l → x ∉ seen → x ∈ uniqFirstAux seen l := by
  induction l with
  | nil => intro seen x hx; simp at hx
  | cons a t ih =>
    intro seen x hx hns
    rcases List.mem_cons.mp hx with hxa | hxt
    · subst hxa
      have hb : seen.contains x = false := by simpa using hns
      simp only [uniqFirstAux, hb, Bool.false_eq_true, if_false]
      exact List.mem_cons_self _ _
    · by_cases hca : a ∈ seen
      · have hb : seen.contains a = true := by simpa using hca
        simp only [uniqFirstAux, hb, if_true]
        exact ih seen x hxt hns
      · have hb : seen.contains a = false := by simpa using hca
        simp only [uniqFirstAux, hb, Bool.false_eq_true, if_false]
        by_cases hxeq : x = a
        · subst hxeq; exact List.mem_cons_self _ _
        · refine List.mem_cons_of_mem _ (ih (a :: seen) x hxt ?_)
          simp [hxeq, hns]

/-- Membership in the deduplicated list. -/
theorem mem_uniqFirst (l : List String) (x : String) (hx : x ∈ l) : x ∈ uniqFirst l :=
  mem_uniqFirstAux l [] x hx (by simp)

/-- The cell filter commutes with the statement-subset filter once the
concept is known to be in the statement's concept list. -/
theorem filter_subset_cell (facts : List XFact) (ordered : List String) (c d : String)
    (hc : ordered.contains c = true) :
    (facts.filter (fun f => ordered.contains f.concept)).filter
        (fun f => f.concept == c && f.date == d) =
      facts.filter (fun f => f.concept == c && f.date == d) := by
  rw [List.filter_filter]
  apply List.filter_congr
  intro f _
  have hcm : c ∈ ordered := by simpa using hc
  by_cases hfc : f.concept = c
  · simp [hfc, hcm]
  · simp [hfc]

/-- C10 — Every statement table is a row-and-column restriction of the
consolidated All Facts table: any (concept, date) cell a statement
table produced by `distribute_statements` holds is held with the
identical value by the All Facts pivot built from the same fact list,
because both sides apply the same first-wins aggregation to the same
per-concept fact sequence. -/
theorem statement_cell_agrees_with_all_facts
    (facts : List XFact) (struct : List (String × List PNode)) (stmt : String)
    (t : PivotTable) (c d : String) (v : PyFloat)
    (hmem : (stmt, t) ∈ distribute_statements facts struct)
    (hcell : cellValue t c d = some v) :
    cellValue (allFactsTable facts) c d = some v := by
  rw [distribute_statements, List.mem_filterMap] at hmem
  obtain ⟨p, _, hp⟩ := hmem
  by_cases hempty : (facts.filter (fun f => (p.2.map (fun a => a.concept)).contains f.concept)).isEmpty
  · simp only [hempty, if_true] at hp
    cases hp
  · simp only [hempty, Bool.false_eq_true, if_false, Option.some.injEq, Prod.mk.injEq] at hp
    obtain ⟨-, ht⟩ := hp
    subst ht
    set ordered := p.2.map (fun a => a.concept) with hordered
    set subset := facts.filter (fun f => ordered.contains f.concept) with hsubset
    rw [cellValue] at hcell
    by_cases hguard :
        ((ordered.filter (fun c0 => subset.any (fun f => f.concept == c0))).contains c &&
          (datesDesc subset).contains d) = true
    · rw [if_pos hguard] at hcell
      have hcord : c ∈ ordered := by
        have h1 := (Bool.and_eq_true _ _).mp hguard |>.1
        have h2 : c ∈ ordered.filter (fun c0 => subset.any (fun f => f.concept == c0)) := by
          simpa using h1
        exact (List.mem_filter.mp h2).1
      have hcordB : ordered.contains c = true := by simpa using hcord
      -- the first-wins cell over the subset equals it over all facts
      have hpf : pivotFirst facts c d = some v := by
        rw [pivotFirst, ← filter_subset_cell facts ordered c d hcordB]
        exact hcell
      -- a witnessing fact with this concept and date exists among all facts
      obtain ⟨f0, hf0mem, hf0c, hf0d⟩ :
          ∃ f0, f0 ∈ facts ∧ f0.concept = c ∧ f0.date = d := by
        rw [pivotFirst] at hpf
        cases hfl : facts.filter (fun f => f.concept == c && f.date == d) with
        | nil => rw [hfl] at hpf; cases hpf
        | cons f0 rest =>
          have hf0 : f0 ∈ facts.filter (fun f => f.concept == c && f.date == d) := by
            rw [hfl]; exact List.mem_cons_self _ _
          have := List.mem_filter.mp hf0
          refine ⟨f0, this.1, ?_, ?_⟩
          · have h := (Bool.and_eq_true _ _).mp this.2 |>.1
            simpa using h
          · have h := (Bool.and_eq_true _ _).mp this.2 |>.2
            simpa using h
      rw [cellValue]
      have hrow : (allFactsTable facts).rowOrder.contains c = true := by
        have hcm : c ∈ facts.map (fun f => f.concept) :=
          List.mem_map.mpr ⟨f0, hf0mem, hf0c⟩
        have : c ∈ sortStrs strLtB (uniqFirst (facts.map (fun f => f.concept))) :=
          (mem_sortStrs _ _ _).mpr (mem_uniqFirst _ _ hcm)
        simpa [allFactsTable] using this
      have hcol : (allFactsTable facts).colOrder.contains d = true := by
        have hdm : d ∈ facts.map (fun f => f.date) :=
          List.mem_map.mpr ⟨f0, hf0mem, hf0d⟩
        have : d ∈ sortStrs (fun a b => strLtB b a) (uniqFirst (facts.map (fun f => f.date))) :=
          (mem_sortStrs _ _ _).mpr (mem_uniqFirst _ _ hdm)
        simpa [allFactsTable, datesDesc] using this
      rw [hrow, hcol]
      simpa [allFactsTable] using hpf
    · rw [if_neg (by simpa using hguard)] at hcell
      cases hcell

/-!
Lemmas about the presentation walk.
-/

/-- A successful association lookup exhibits a member of the list. -/
theorem lookupAssoc_mem {α : Type} (m : List (String × α)) (k : String) (v : α)
    (h : lookupAssoc m k = some v) : (k, v) ∈ m := by
  unfold lookupAssoc at h
  cases hf : m.find? (fun q => q.1 == k) with
  | none => rw [hf] at h; cases h
  | some q =>
    rw [hf] at h
    have hqmem := List.mem_of_find?_eq_some hf
    have hq : q.1 = k := by simpa using List.find?_some hf
    obtain ⟨q1, q2⟩ := q
    simp only [Option.map_some'] at h
    injection h with h2
    simp only at hq h2
    subst hq
    subst h2
    exact hqmem

/-- Membership through stable node insertion. -/
theorem mem_insertNodeAsc (a x : PNode) (l : List PNode) :
    x ∈ insertNodeAsc a l ↔ x = a ∨ x ∈ l := by
  induction l with
  | nil => simp [insertNodeAsc]
  | cons b bs ih =>
    by_cases hlt : PyFloat.ltB a.order b.order
    · simp [insertNodeAsc, hlt]
    · simp only [insertNodeAsc, hlt, Bool.false_eq_true, if_false, List.mem_cons, ih]
      tauto

/-- Membership through the node insertion sort. -/
theorem mem_sortNodes (l : List PNode) (x : PNode) : x ∈ sortNodes l ↔ x ∈ l := by
  suffices h : ∀ acc : List PNode,
      x ∈ l.foldl (fun acc a => insertNodeAsc a acc) acc ↔ x ∈ acc ∨ x ∈ l by
    simpa using h []
  induction l with
  | nil => simp
  | cons b bs ih =>
    intro acc
    simp only [List.foldl_cons, ih, mem_insertNodeAsc, List.mem_cons]
    tauto

/-- Once the walk loop has failed, it stays failed. -/
theorem walk_foldl_none (f : PNode → Option (List PNode)) (nodes : List PNode) :
    nodes.foldl (fun acc node => walkStep (f node) acc node) none = none := by
  induction nodes with
  | nil => rfl
  | cons node rest ih => simpa [walkStep] using ih

/-- Every node a successful walk emits is one of the child entries
stored in the adjacency map: in particular the walk never emits a root
concept that is not itself some arc's target. -/
theorem walkF_mem (children : List (String × List PNode)) :
    ∀ (fuel : ℕ) (p : String) (res : List PNode), walkF children fuel p = some res →
      ∀ n ∈ res, ∃ k ns, (k, ns) ∈ children ∧ n ∈ ns := by
  intro fuel
  induction fuel with
  | zero => intro p res h; simp [walkF] at h
  | succ m ih =>
    intro p res h n hn
    rw [walkF] at h
    cases hl : lookupAssoc children p with
    | none =>
      rw [hl] at h
      injection h with h
      subst h
      cases hn
    | some ns =>
      rw [hl] at h
      have hpns : (p, ns) ∈ children := lookupAssoc_mem children p ns hl
      have aux : ∀ (nodes l0 res' : List PNode),
          (∀ x ∈ nodes, x ∈ ns) →
          (∀ x ∈ l0, ∃ k ns', (k, ns') ∈ children ∧ x ∈ ns') →
          nodes.foldl (fun acc node => walkStep (walkF children m node.concept) acc node)
              (some l0) = some res' →
          ∀ x ∈ res', ∃ k ns', (k, ns') ∈ children ∧ x ∈ ns' := by
        intro nodes
        induction nodes with
        | nil =>
          intro l0 res' _ hl0 hfold x hx
          simp only [List.foldl_nil] at hfold
          injection hfold with hh
          subst hh
          exact hl0 x hx
        | cons node rest ihn =>
          intro l0 res' hsub hl0 hfold x hx
          simp only [List.foldl_cons] at hfold
          cases hw : walkF children m node.concept with
          | none =>
            have hstep : walkStep (walkF children m node.concept) (some l0) node = none := by
              rw [hw]
              rfl
            rw [hstep, walk_foldl_none] at hfold
            cases hfold
          | some sub =>
            have hstep : walkStep (walkF children m node.concept) (some l0) node =
                some (l0 ++ node :: sub) := by
              rw [hw]
              rfl
            rw [hstep] at hfold
            refine ihn (l0 ++ node :: sub) res' (fun y hy => hsub y (List.mem_cons_of_mem _ hy))
              ?_ hfold x hx
            intro y hy
            rcases List.mem_append.mp hy with hyl | hyr
            · exact hl0 y hyl
            · rcases List.mem_cons.mp hyr with hyn | hys
              · subst hyn
                exact ⟨p, ns, hpns, hsub y (List.mem_cons_self _ _)⟩
              · exact ih node.concept sub hw y hys
      exact aux (sortNodes ns) [] res (fun x hx => (mem_sortNodes ns x).mp hx)
        (by intro x hx; cases hx) h n hn

/-!
The dialect-dependent numeric text of a candidate element, and the
skip behaviour on non-values.
-/

/-- The numeric text the extractor will try to parse for an element:
the joined item text for an inline-XBRL fact, `elem.text` for a plain
taxonomy-namespaced fact, nothing for elements the extractor never
treats as facts. -/
def numericTextOf (e : InstanceElem) : Option String :=
  if e.ns = some IXBRL_NS ∧ (e.localName = "nonFraction" ∨ e.localName = "nonNumeric") then
    some e.itertext
  else
    match e.ns with
    | none => none
    | some n => if n = IXBRL_NS ∨ n = LINK_NS ∨ n = XLINK_NS then none else e.text

/-- An element whose numeric text is the em dash, a bare hyphen or
empty is skipped by the extractor in both dialects. -/
theorem extract_none_of_bad_text (cm : List (String × String)) (e : InstanceElem) (t : String)
    (hnum : numericTextOf e = some t) (hbad : t = "—" ∨ t = "-" ∨ t = "") :
    extractFromElem cm e = none := by
  have hfloat : pyFloat? t = none := by
    rcases hbad with h | h | h <;> subst h <;> decide
  cases hcr : getAttr e "contextRef" with
  | none => simp [extractFromElem, hcr]
  | some cref =>
    by_cases hc : cref = ""
    · simp [extractFromElem, hcr, hc]
    · cases hlk : lookupAssoc cm cref with
      | none => simp [extractFromElem, hcr, hc, hlk]
      | some date =>
        by_cases hix : e.ns = some IXBRL_NS ∧
            (e.localName = "nonFraction" ∨ e.localName = "nonNumeric")
        · have ht : e.itertext = t := by
            unfold numericTextOf at hnum
            rw [if_pos hix] at hnum
            injection hnum
          by_cases hname : (getAttr e "name").getD "" = ""
          · simp [extractFromElem, hcr, hc, hlk, hix, hname]
          · have hclean : removeCommas (strTrim t) = t := by
              rcases hbad with h | h | h <;> subst h <;> rfl
            simp [extractFromElem, hcr, hc, hlk, hix, hname, ht, hclean, hfloat]
        · unfold numericTextOf at hnum
          rw [if_neg hix] at hnum
          cases hns : e.ns with
          | none => rw [hns] at hnum; cases hnum
          | some n =>
            rw [hns] at hnum
            by_cases htrio : n = IXBRL_NS ∨ n = LINK_NS ∨ n = XLINK_NS
            · simp [htrio] at hnum
            · simp only [htrio, if_false, iff_false, Option.some.injEq] at hnum
              simp only [extractFromElem, hcr, hc, hlk, hix, hns, htrio, hnum, hfloat]
              have hcond : ¬((some n : Option String) = some IXBRL_NS ∧
                  (e.localName = "nonFraction" ∨ e.localName = "nonNumeric")) := by
                rintro ⟨h1, -⟩
                injection h1 with h1
                exact htrio (Or.inl h1)
              simp only [hcond, if_false, iff_false]

/-- Skipping an element leaves the extracted fact list unchanged. -/
theorem parse_instance_doc_skip (ctxs : List ContextDecl) (e : InstanceElem)
    (h : extractFromElem (parseContexts ctxs) e = none) (pre post : List InstanceElem) :
    parse_instance_doc ctxs (pre ++ e :: post) = parse_instance_doc ctxs (pre ++ post) := by
  unfold parse_instance_doc
  simp [List.filterMap_append, List.filterMap_cons, h]

/-!
Concrete end-to-end scenario: a consolidated context `c1` and a
geography-segmented context `c2`, both instant 2024-12-31, with an
`Assets` fact of 1000 on `c1` and 400 on `c2`, and a presentation
linkbase whose balance-sheet role presents `Assets`.
-/

/-- Consolidated instant context `c1` (entity present, no segment). -/
def scC1 : ContextDecl := ⟨"c1", some ⟨none⟩, ⟨some "2024-12-31", none, none⟩⟩

/-- Geography-segmented instant context `c2` (segment child with one
explicit dimension member). -/
def scC2 : ContextDecl :=
  ⟨"c2", some ⟨some ["us-gaap:StatementGeographicalAxis"]⟩, ⟨some "2024-12-31", none, none⟩⟩

/-- The consolidated `Assets` fact element (plain dialect, value 1000,
bound to `c1`). -/
def scE1 : InstanceElem :=
  ⟨some "http://fasb.org/us-gaap/2024", "Assets", [("contextRef", "c1")], some "1000", "1000"⟩

/-- The segmented `Assets` fact element (plain dialect, value 400,
bound to `c2`). -/
def scE2 : InstanceElem :=
  ⟨some "http://fasb.org/us-gaap/2024", "Assets", [("contextRef", "c2")], some "400", "400"⟩

/-- The presentation linkbase body: one balance-sheet role presenting
`Assets` under an abstract root. -/
def scPres : List PresLink :=
  [⟨some "http://www.example.com/role/ConsolidatedBalanceSheets",
    [⟨some "loc_1", some "doc.xml#us-gaap_AssetsAbstract"⟩,
     ⟨some "loc_2", some "doc.xml#us-gaap_Assets"⟩],
    [⟨some "loc_1", some "loc_2", some "1"⟩]⟩]

/-- The filing index of the scenario. -/
def scFiles : List String := ["aapl-20240928_htm.xml", "aapl-20240928_pre.xml"]

/-- Successful fetch of the instance document. -/
def scFI : String → Option (List ContextDecl × List InstanceElem) :=
  fun n => if n = "aapl-20240928_htm.xml" then some ([scC1, scC2], [scE1, scE2]) else none

/-- Successful fetch of the presentation linkbase. -/
def scFP : String → Option (List PresLink) :=
  fun n => if n = "aapl-20240928_pre.xml" then some scPres else none

/-- Calculation fetch oracle (the index has no calculation file, so it
is never consulted). -/
def scFC : String → Option (List CalcLink) := fun _ => none

/-- The Balance Sheet cell for `Assets` at 2024-12-31 produced by the
whole scenario run. -/
def scenarioBalanceCell : Option PyFloat :=
  match extract_excel_run scFiles scFI scFP scFC with
  | Except.error _ => none
  | Except.ok r =>
    match lookupAssoc r.1 "Balance Sheet" with
    | none => none
    | some tbl => cellValue tbl "Assets" "2024-12-31"

/-- C1 — Facts bound to a segmented context never appear in any
assembled statement table: an element whose `contextRef` names a
context whose entity declares a segment child with a dimension member
(and every context sharing that id is likewise segmented, ids being
unique in a well-formed instance) yields no fact at all, so it cannot
contribute a cell anywhere; and in the end-to-end scenario the Balance
Sheet shows Assets at 2024-12-31 as 1000, never 1400 or 400. -/
theorem segmented_facts_never_reach_statement_tables :
    (∀ (ctxs : List ContextDecl) (e : InstanceElem) (c : ContextDecl),
      c ∈ ctxs → hasDimensionMember c →
      (∀ c2 ∈ ctxs, c2.id = c.id → hasSegmentChild c2 = true) →
      getAttr e "contextRef" = some c.id →
      extractFromElem (parseContexts ctxs) e = none) ∧
    scenarioBalanceCell = some ⟨1000, 0⟩ ∧
    scenarioBalanceCell ≠ some ⟨1400, 0⟩ ∧ scenarioBalanceCell ≠ some ⟨400, 0⟩ := by
  refine ⟨?_, rfl, by decide, by decide⟩
  intro ctxs e c _hc _hdim hall href
  exact extractFromElem_none_of_unresolved _ e c.id href
    (parseContexts_lookup_none ctxs c.id hall)

/-- Witness for C1: the segmented scenario element `scE2` is dropped. -/
theorem segmented_facts_never_reach_statement_tables_witness :
    extractFromElem (parseContexts [scC1, scC2]) scE2 = none :=
  segmented_facts_never_reach_statement_tables.1 [scC1, scC2] scE2 scC2
    (by decide)
    ⟨⟨some ["us-gaap:StatementGeographicalAxis"]⟩, ["us-gaap:StatementGeographicalAxis"],
      rfl, rfl, by decide⟩
    (by decide) rfl

/-- C9 counterexample — a context whose entity declares a segment child
with an explicit dimension member is not recorded in the context map at
all: the resolver output for a document with only that context is
empty, so the context is not present-but-flagged as claimed. -/
theorem segmented_context_recorded_counterexample :
    parseContexts [scC2] = [] ∧ lookupAssoc (parseContexts [scC2]) "c2" = none := by
  exact ⟨rfl, rfl⟩

/-- C9 (amended) — a context with a segment child (in particular one
with a dimension member) is omitted from the context map entirely,
provided every context sharing its id is likewise segmented; the
exclusion of its facts is achieved by this omission rather than by a
recorded flag. -/
theorem segmented_context_omitted (ctxs : List ContextDecl) (c : ContextDecl)
    (_hc : c ∈ ctxs) (_hseg : hasSegmentChild c = true)
    (hall : ∀ c2 ∈ ctxs, c2.id = c.id → hasSegmentChild c2 = true) :
    lookupAssoc (parseContexts ctxs) c.id = none :=
  parseContexts_lookup_none ctxs c.id hall

/-- Witness for the amended C9 at the segmented scenario context. -/
theorem segmented_context_omitted_witness :
    lookupAssoc (parseContexts [scC2]) scC2.id = none :=
  segmented_context_omitted [scC2] scC2 (by decide) (by decide) (by decide)

/-!
Scale and sign handling of the inline-XBRL branch.
-/

/-- A context map with one consolidated binding, used by the
single-element examples below. -/
def oneCtxMap : List (String × String) := [("c1", "2024-12-31")]

/-- An inline-XBRL `Assets` fact element with text 45 and an arbitrary
`scale` attribute value. -/
def scaledElem (s : String) : InstanceElem :=
  ⟨some IXBRL_NS, "nonFraction",
   [("contextRef", "c1"), ("name", "us-gaap:Assets"), ("scale", s)], none, "45"⟩

/-- C2 counterexample — with `scale="3"` and raw text `45` the
extractor resolves the value to 45, not 45000: the claimed power-of-ten
multiplication does not happen. -/
theorem scale_not_applied_counterexample :
    extractFromElem oneCtxMap (scaledElem "3") = some ⟨"Assets", "2024-12-31", ⟨45, 0⟩⟩ ∧
    ¬ PyFloat.eqv ⟨45, 0⟩ ⟨45000, 0⟩ := by
  exact ⟨rfl, by decide⟩

set_option maxHeartbeats 1600000 in
/-- C2 (amended) — the extractor ignores the `scale` attribute
entirely: whatever its value, the resolved value is the parsed numeric
text times the sign multiplier, with no power-of-ten scaling. -/
theorem scale_attribute_ignored (s : String) :
    extractFromElem oneCtxMap (scaledElem s) = some ⟨"Assets", "2024-12-31", ⟨45, 0⟩⟩ := rfl

/-- Witness for the amended C2 at the concrete scale value 3. -/
theorem scale_attribute_ignored_witness :
    extractFromElem oneCtxMap (scaledElem "3") = some ⟨"Assets", "2024-12-31", ⟨45, 0⟩⟩ :=
  scale_attribute_ignored "3"

/-- An inline-XBRL fact element carrying the negative-sign marker, with
the given raw text. -/
def signedElem (txt : String) : InstanceElem :=
  ⟨some IXBRL_NS, "nonFraction",
   [("contextRef", "c1"), ("name", "us-gaap:NetIncomeLoss"), ("sign", "-")], none, txt⟩

/-- C5 counterexample — with the negative-sign marker, raw text `(10)`
does not resolve to -10 (the parenthesized text is unparsable and the
element is skipped), and raw text `-10` resolves to +10 rather than
being forced negative. -/
theorem sign_marker_counterexample :
    extractFromElem oneCtxMap (signedElem "(10)") = none ∧
    (extractFromElem oneCtxMap (signedElem "-10")).map XFact.value = some ⟨10, 0⟩ := by
  exact ⟨rfl, rfl⟩

/-- C5 (amended) — the negative-sign marker multiplies the parsed value
by -1 rather than forcing it negative: raw `10` resolves to -10, raw
`-10` resolves to +10, and parenthesized raw `(10)` raises inside the
guarded loop body so the element is skipped. -/
theorem sign_marker_multiplies :
    extractFromElem oneCtxMap (signedElem "10") =
      some ⟨"NetIncomeLoss", "2024-12-31", ⟨-10, 0⟩⟩ ∧
    extractFromElem oneCtxMap (signedElem "-10") =
      some ⟨"NetIncomeLoss", "2024-12-31", ⟨10, 0⟩⟩ ∧
    extractFromElem oneCtxMap (signedElem "(10)") = none := by
  exact ⟨rfl, rfl, rfl⟩

/-- C7 — the role `.../role/StatementsOfCashFlowsParenthetical` is
classified as none: the Cash Flow rule has both an include keyword
(`cashflow`) and an exclude keyword (`parenthetical`) matching, so it
is skipped, and no other rule's include keywords match. -/
theorem parenthetical_cashflow_role_unclassified :
    classify_role "http://www.example.com/role/StatementsOfCashFlowsParenthetical" = none ∧
    (∃ rule ∈ STATEMENT_RULES, rule.name = "Cash Flow" ∧
      anyKeyword (normalizeRole
        "http://www.example.com/role/StatementsOfCashFlowsParenthetical") rule.includeKw = true ∧
      anyKeyword (normalizeRole
        "http://www.example.com/role/StatementsOfCashFlowsParenthetical") rule.excludeKw = true) ∧
    (∀ rule ∈ STATEMENT_RULES, rule.name ≠ "Cash Flow" →
      anyKeyword (normalizeRole
        "http://www.example.com/role/StatementsOfCashFlowsParenthetical") rule.includeKw = false) := by
  refine ⟨by decide, ?_, by decide⟩
  refine ⟨⟨"Cash Flow",
    ["cashflow", "cash_flow", "statementofcashflows", "statementsofcashflows",
     "consolidatedcashflows", "consolidatedstatementsofcash"],
    ["parenthetical", "detail", "policy", "note", "supplement", "disclosure"]⟩, ?_, rfl, by decide, by decide⟩
  decide

/-!
Presentation flattening: the concrete role of the ordering scenario
and the cyclic counterpart.
-/

/-- A balance-sheet role whose root concept `A` has children `A2`
(order 2) and `A1` (order 1), in that document order. -/
def c3Link : PresLink :=
  ⟨some "http://www.example.com/role/ConsolidatedBalanceSheets",
   [⟨some "loc_A", some "d.xml#x_A"⟩, ⟨some "loc_A1", some "d.xml#x_A1"⟩,
    ⟨some "loc_A2", some "d.xml#x_A2"⟩],
   [⟨some "loc_A", some "loc_A2", some "2"⟩, ⟨some "loc_A", some "loc_A1", some "1"⟩]⟩

/-- The adjacency map the arcs of `c3Link` build. -/
def c3Children : List (String × List PNode) :=
  [("A", [⟨"A2", ⟨2, 0⟩, some "A"⟩, ⟨"A1", ⟨1, 0⟩, some "A"⟩])]

/-- C3 counterexample — flattening the role of `c3Link` yields the row
order [A1, A2]: the root concept `A` is never emitted, so the claimed
order [A, A1, A2] (root first, then descendants) does not hold. -/
theorem flatten_omits_roots_counterexample :
    parse_presentation_doc [c3Link] =
      Except.ok [("Balance Sheet",
        [⟨"A1", ⟨1, 0⟩, some "A"⟩, ⟨"A2", ⟨2, 0⟩, some "A"⟩])] ∧
    [(⟨"A1", ⟨1, 0⟩, some "A"⟩ : PNode), ⟨"A2", ⟨2, 0⟩, some "A"⟩].map PNode.concept ≠
      ["A", "A1", "A2"] := by
  exact ⟨rfl, by decide⟩

/-- C3 (amended) — the flattened concept list of a role is the
pre-order depth-first traversal of each root's strict descendants,
children sorted by arc order ascending; the root concepts themselves
are not emitted (every emitted node is one of the stored child
entries): the role with root A over children A2 (order 2), A1 (order 1)
flattens to [A1, A2]. -/
theorem flatten_emits_only_arc_targets :
    ((parse_presentation_doc [c3Link]).map
      (fun m => m.map (fun st => (st.1, st.2.map PNode.concept)))) =
      Except.ok [("Balance Sheet", ["A1", "A2"])] ∧
    (∀ (children : List (String × List PNode)) (fuel : ℕ) (p : String) (res : List PNode),
      walkF children fuel p = some res →
      ∀ n ∈ res, ∃ k ns, (k, ns) ∈ children ∧ n ∈ ns) := by
  exact ⟨rfl, fun children fuel p res h n hn => walkF_mem children fuel p res h n hn⟩

/-- Witness for the amended C3: the first emitted node of the concrete
walk is a stored child entry. -/
theorem flatten_emits_only_arc_targets_witness :
    ∃ k ns, (k, ns) ∈ c3Children ∧ (⟨"A1", ⟨1, 0⟩, some "A"⟩ : PNode) ∈ ns :=
  flatten_emits_only_arc_targets.2 c3Children 3 "A"
    [⟨"A1", ⟨1, 0⟩, some "A"⟩, ⟨"A2", ⟨2, 0⟩, some "A"⟩] rfl
    ⟨"A1", ⟨1, 0⟩, some "A"⟩ (by decide)

/-!
Run-level degradation and abort behaviour, and the cyclic walk.
-/

/-- A filing index containing an instance file and a presentation
linkbase file. -/
def c4Files : List String := ["f_htm.xml", "a_pre.xml"]

/-- An instance fetch that succeeds with an empty document. -/
def c4FI : String → Option (List ContextDecl × List InstanceElem) := fun _ => some ([], [])

/-- A presentation fetch that fails (HTTP error). -/
def c4FPfail : String → Option (List PresLink) := fun _ => none

/-- A calculation fetch oracle (never consulted: no `_cal.xml` in the
index). -/
def c4FC : String → Option (List CalcLink) := fun _ => none

/-- C4 counterexample — the presentation linkbase file is present in
the index but its fetch fails: the exception propagates and the whole
extraction run aborts, even though the instance document fetched
successfully, refuting the claim that an optional linkbase fetch
failure never aborts the run. -/
theorem linkbase_fetch_failure_aborts_counterexample :
    extract_excel_run c4Files c4FI c4FPfail c4FC = Except.error () := rfl

/-- C4 (amended) — only a linkbase file missing from the filing index
degrades to an empty concept map; an HTTP failure fetching a linkbase
file that is present aborts the whole run, as does a missing instance
document. -/
theorem linkbase_missing_degrades_but_fetch_failure_aborts :
    (∀ (files : List String) (fetch : String → Option (List PresLink)),
      find_file files "_pre.xml" = none → parse_presentation_run files fetch = Except.ok []) ∧
    (∀ (files : List String) (fetch : String → Option (List CalcLink)),
      find_file files "_cal.xml" = none → parse_calculation_run files fetch = Except.ok []) ∧
    (∀ (files : List String) fi fp fc, findInstanceFile files = none →
      extract_excel_run files fi fp fc = Except.error ()) ∧
    extract_excel_run c4Files c4FI c4FPfail c4FC = Except.error () := by
  refine ⟨?_, ?_, ?_, rfl⟩
  · intro files fetch h
    unfold parse_presentation_run
    rw [h]
  · intro files fetch h
    unfold parse_calculation_run
    rw [h]
  · intro files fi fp fc h
    unfold extract_excel_run parse_instance_run
    rw [h]
    rfl

/-- Witness for the amended C4 at concrete indexes and oracles. -/
theorem linkbase_missing_degrades_witness :
    parse_presentation_run ["only_cal.xml"] c4FPfail = Except.ok [] ∧
    parse_calculation_run ["a_pre.xml"] c4FC = Except.ok [] ∧
    extract_excel_run ["readme.txt"] c4FI c4FPfail c4FC = Except.error () :=
  ⟨linkbase_missing_degrades_but_fetch_failure_aborts.1 ["only_cal.xml"] c4FPfail rfl,
   linkbase_missing_degrades_but_fetch_failure_aborts.2.1 ["a_pre.xml"] c4FC rfl,
   linkbase_missing_degrades_but_fetch_failure_aborts.2.2.1 ["readme.txt"] c4FI c4FPfail c4FC rfl⟩

/-- C6 — an element whose numeric text is the em dash, a bare hyphen or
the empty string yields no fact at all (not a null- or zero-valued
one), and extraction continues unchanged over the remaining
elements. -/
theorem dash_empty_texts_yield_no_fact (ctxs : List ContextDecl) (e : InstanceElem)
    (t : String) (hnum : numericTextOf e = some t) (hbad : t = "—" ∨ t = "-" ∨ t = "") :
    extractFromElem (parseContexts ctxs) e = none ∧
    ∀ pre post, parse_instance_doc ctxs (pre ++ e :: post) = parse_instance_doc ctxs (pre ++ post) := by
  have h := extract_none_of_bad_text (parseContexts ctxs) e t hnum hbad
  exact ⟨h, fun pre post => parse_instance_doc_skip ctxs e h pre post⟩

/-- An inline-XBRL fact element whose text is the em dash. -/
def dashElem : InstanceElem :=
  ⟨some IXBRL_NS, "nonFraction", [("contextRef", "c1"), ("name", "us-gaap:Revenues")], none, "—"⟩

/-- Witness for C6: the em-dash element is dropped and the fact list is
as if it were absent. -/
theorem dash_empty_texts_yield_no_fact_witness :
    extractFromElem (parseContexts [scC1]) dashElem = none ∧
    parse_instance_doc [scC1] [scE1, dashElem] = parse_instance_doc [scC1] [scE1] := by
  have h := dash_empty_texts_yield_no_fact [scC1] dashElem "—" rfl (Or.inl rfl)
  exact ⟨h.1, h.2 [scE1] []⟩

/-- The cyclic adjacency map R → A → B → A (a cycle reachable from the
root R). -/
def cycChildren : List (String × List PNode) :=
  [("R", [⟨"A", ⟨1, 0⟩, some "R"⟩]),
   ("A", [⟨"B", ⟨1, 0⟩, some "A"⟩]),
   ("B", [⟨"A", ⟨1, 0⟩, some "B"⟩])]

/-- On the A-B cycle the walk exhausts any amount of fuel. -/
theorem walkF_cyc_AB (m : ℕ) :
    walkF cycChildren m "A" = none ∧ walkF cycChildren m "B" = none := by
  induction m with
  | zero => exact ⟨rfl, rfl⟩
  | succ k ih =>
    refine ⟨?_, ?_⟩
    · have h : walkF cycChildren (k + 1) "A" =
          walkStep (walkF cycChildren k "B") (some []) ⟨"B", ⟨1, 0⟩, some "A"⟩ := rfl
      rw [h, ih.2]
      rfl
    · have h : walkF cycChildren (k + 1) "B" =
          walkStep (walkF cycChildren k "A") (some []) ⟨"A", ⟨1, 0⟩, some "B"⟩ := rfl
      rw [h, ih.1]
      rfl

/-- A presentation link whose arcs form the cycle R → A → B → A under a
classified balance-sheet role. -/
def cycLink : PresLink :=
  ⟨some "http://www.example.com/role/ConsolidatedBalanceSheets",
   [⟨some "loc_R", some "d.xml#x_R"⟩, ⟨some "loc_A", some "d.xml#x_A"⟩,
    ⟨some "loc_B", some "d.xml#x_B"⟩],
   [⟨some "loc_R", some "loc_A", some "1"⟩,
    ⟨some "loc_A", some "loc_B", some "1"⟩,
    ⟨some "loc_B", some "loc_A", some "1"⟩]⟩

/-- C8 — the flattening walk performs no cycle detection: on the arc
set R → A, A → B, B → A (a cycle reachable from the root R) the
recursion exhausts every finite recursion depth, so in Python it
recurses until `RecursionError` rather than detecting and breaking the
cycle, and the parse of the role aborts. -/
theorem walk_cycle_never_terminates :
    (∀ fuel : ℕ, walkF cycChildren fuel "R" = none) ∧
    parse_presentation_doc [cycLink] = Except.error () := by
  constructor
  · intro fuel
    cases fuel with
    | zero => rfl
    | succ k =>
      have h : walkF cycChildren (k + 1) "R" =
          walkStep (walkF cycChildren k "A") (some []) ⟨"A", ⟨1, 0⟩, some "R"⟩ := rfl
      rw [h, (walkF_cyc_AB k).1]
      rfl
  · rfl

/-- The one-fact list of the C10 witness. -/
def w10Facts : List XFact := [⟨"Assets", "2024-12-31", ⟨1000, 0⟩⟩]

/-- The one-statement structure of the C10 witness. -/
def w10Struct : List (String × List PNode) := [("Balance Sheet", [⟨"Assets", ⟨1, 0⟩, none⟩])]

/-- Witness for C10 at the concrete one-fact scenario. -/
theorem statement_cell_agrees_with_all_facts_witness :
    cellValue (allFactsTable w10Facts) "Assets" "2024-12-31" = some ⟨1000, 0⟩ :=
  statement_cell_agrees_with_all_facts w10Facts w10Struct "Balance Sheet"
    ⟨w10Facts, ["Assets"], ["2024-12-31"]⟩ "Assets" "2024-12-31" ⟨1000, 0⟩
    (by decide) rfl

/-- Witness for C7: instantiating the no-other-rule-matches part at the
Balance Sheet rule. -/
theorem parenthetical_cashflow_role_unclassified_witness :
    anyKeyword (normalizeRole
      "http://www.example.com/role/StatementsOfCashFlowsParenthetical")
      ["balancesheet", "balance_sheet",
       "financialposition", "financial_position",
       "financialcondition", "financial_condition",
       "consolidatedbalance", "statementoffinancialposition"] = false :=
  parenthetical_cashflow_role_unclassified.2.2
    ⟨"Balance Sheet",
     ["balancesheet", "balance_sheet",
      "financialposition", "financial_position",
      "financialcondition", "financial_condition",
      "consolidatedbalance", "statementoffinancialposition"],
     ["parenthetical", "detail", "policy", "note"]⟩
    (by decide) (by decide)
